import Mathlib

/-!
Verification of `src/lib/isomorphic-ws/isomorphic-ws.ts`.

This file shallowly embeds the module's pure logic:
* the message normalizer `normalizeNodeMessageData` (lines 134-173),
* the listener wiring of `wrapNodeWebSocket.addEventListener` (lines 85-124),
* the runtime detection and factory dispatch of `getIsomorphicWebSocket`
  (lines 41-67), and
* the Cloudflare upgrade path `createCloudflareWebSocket` (lines 175-191).

JavaScript binary values are modelled by their observable byte contents:
an `ArrayBuffer` is a list of bytes, and a typed-array view (including
`Uint8Array`) is a backing buffer together with a byte offset and length.
-/

/-- The observable bytes of a typed-array view: `byteLength` bytes of the
backing buffer starting at `byteOffset`. -/
def viewBytes (buffer : List Nat) (byteOffset byteLength : Nat) : List Nat :=
  (buffer.drop byteOffset).take byteLength

/-- A JavaScript value appearing as an element of an array passed to the
normalizer.  `uint8Array` and `view` carry their backing buffer, offset and
length; `other` is any value recognized by none of the `instanceof` /
`isView` tests in lines 146-154 (the tag distinguishes such values). -/
inductive RawChunk where
  | uint8Array (buffer : List Nat) (byteOffset byteLength : Nat)
  | arrayBuffer (bytes : List Nat)
  | view (buffer : List Nat) (byteOffset byteLength : Nat)
  | other (tag : Nat)
deriving DecidableEq, Repr

/-- Chunk coercion, lines 145-156: a `Uint8Array` is kept (its bytes are its
view bytes), an `ArrayBuffer` is wrapped whole, any other view is re-viewed
with the same buffer/offset/length, and anything else becomes
`new Uint8Array()` (empty). -/
def chunkToUint8 : RawChunk → List Nat
  | RawChunk.uint8Array buffer byteOffset byteLength => viewBytes buffer byteOffset byteLength
  | RawChunk.arrayBuffer bytes => bytes
  | RawChunk.view buffer byteOffset byteLength => viewBytes buffer byteOffset byteLength
  | RawChunk.other _ => []

/-- Whether a chunk is one of the recognized binary shapes (not coerced to
the empty `Uint8Array` by line 155). -/
def RawChunk.isBinary : RawChunk → Bool
  | RawChunk.uint8Array _ _ _ => true
  | RawChunk.arrayBuffer _ => true
  | RawChunk.view _ _ _ => true
  | RawChunk.other _ => false

/-- The `byteLength` of a chunk as the source reads it (`chunk.byteLength`);
an unrecognized chunk became `new Uint8Array()` with `byteLength` 0. -/
def RawChunk.byteLength : RawChunk → Nat
  | RawChunk.uint8Array _ _ byteLength => byteLength
  | RawChunk.arrayBuffer bytes => bytes.length
  | RawChunk.view _ _ byteLength => byteLength
  | RawChunk.other _ => 0

/-- A JavaScript typed-array view is constructed with
`byteOffset + byteLength <= buffer.byteLength` (the constructor throws
otherwise), so every view reaching the normalizer satisfies this bound. -/
def RawChunk.wf : RawChunk → Bool
  | RawChunk.uint8Array buffer byteOffset byteLength => byteOffset + byteLength ≤ buffer.length
  | RawChunk.arrayBuffer _ => true
  | RawChunk.view buffer byteOffset byteLength => byteOffset + byteLength ≤ buffer.length
  | RawChunk.other _ => true

/-- `totalLength`, lines 157-160: left fold of `byteLength` over the coerced
chunks starting from 0. -/
def totalLength (chunks : List (List Nat)) : Nat :=
  chunks.foldl (fun total chunk => total + chunk.length) 0

/-- `merged.set(chunk, offset)`: overwrite `chunk.length` bytes of `arr`
starting at `offset` with the bytes of `chunk`. -/
def setChunk (arr chunk : List Nat) (offset : Nat) : List Nat :=
  arr.take offset ++ chunk ++ arr.drop (offset + chunk.length)

/-- The write loop of lines 162-166: successively `set` each chunk at the
running offset. -/
def writeChunks : List (List Nat) → List Nat → Nat → List Nat
  | [], arr, _ => arr
  | chunk :: rest, arr, offset => writeChunks rest (setChunk arr chunk offset) (offset + chunk.length)

/-- Lines 157-167: allocate `new Uint8Array(totalLength)` (all zero bytes)
and copy each chunk in at its running offset. -/
def mergeChunks (chunks : List (List Nat)) : List Nat :=
  writeChunks chunks (List.replicate (totalLength chunks) 0) 0

/-- A raw incoming message value, as discriminated by the tests of
`normalizeNodeMessageData`: a string, an `ArrayBuffer`, a typed-array view
(this covers a bare `Uint8Array`, which `ArrayBuffer.isView` already
accepts at line 141), an array of chunks, or anything else (`other`, with a
tag distinguishing the unrecognized values). -/
inductive RawData where
  | str (s : String)
  | arrayBuffer (bytes : List Nat)
  | view (buffer : List Nat) (byteOffset byteLength : Nat)
  | array (chunks : List RawChunk)
  | other (tag : Nat)
deriving DecidableEq, Repr

/-- The normalized message (`IsomorphicMessageData` as produced by the
normalizer): a string, an `ArrayBuffer` passed through unchanged, or a
`Uint8Array` given by its observable bytes. -/
inductive MessageData where
  | str (s : String)
  | arrayBuffer (bytes : List Nat)
  | uint8Array (bytes : List Nat)
deriving DecidableEq, Repr

/-- `normalizeNodeMessageData`, lines 134-173.  Strings and `ArrayBuffer`s
pass through; a view is re-wrapped as a `Uint8Array` over the same buffer,
offset and length (line 142); an array is coerced chunkwise and merged into
a fresh `Uint8Array` (lines 144-167); anything else yields
`new Uint8Array()` (line 172).  The `data instanceof Uint8Array` test at
line 169 is unreachable because `ArrayBuffer.isView` at line 141 already
accepts every `Uint8Array`. -/
def normalizeNodeMessageData : RawData → MessageData
  | RawData.str s => MessageData.str s
  | RawData.arrayBuffer bytes => MessageData.arrayBuffer bytes
  | RawData.view buffer byteOffset byteLength =>
      MessageData.uint8Array (viewBytes buffer byteOffset byteLength)
  | RawData.array chunks => MessageData.uint8Array (mergeChunks (chunks.map chunkToUint8))
  | RawData.other _ => MessageData.uint8Array []

/-- Sum of the lengths of a list of byte lists. -/
def sumLen (chunks : List (List Nat)) : Nat := (chunks.map List.length).sum

theorem totalLength_go (chunks : List (List Nat)) (n : Nat) :
    chunks.foldl (fun total chunk => total + chunk.length) n = n + sumLen chunks := by
  induction chunks generalizing n with
  | nil => simp [sumLen]
  | cons c cs ih => simp [sumLen, List.foldl_cons, ih, List.map_cons, List.sum_cons]; omega

theorem totalLength_eq_sumLen (chunks : List (List Nat)) :
    totalLength chunks = sumLen chunks := by
  simpa using totalLength_go chunks 0

theorem writeChunks_join (chunks : List (List Nat)) (pre : List Nat) :
    writeChunks chunks (pre ++ List.replicate (sumLen chunks) 0) pre.length =
      pre ++ chunks.flatten := by
  induction chunks generalizing pre with
  | nil => simp [writeChunks, sumLen]
  | cons c cs ih =>
      have hset : setChunk (pre ++ List.replicate (sumLen (c :: cs)) 0) c pre.length =
          (pre ++ c) ++ List.replicate (sumLen cs) 0 := by
        unfold setChunk
        have h1 : (pre ++ List.replicate (sumLen (c :: cs)) 0).take pre.length = pre := by
          simp
        have h2 : (pre ++ List.replicate (sumLen (c :: cs)) 0).drop (pre.length + c.length) =
            List.replicate (sumLen cs) 0 := by
          rw [List.drop_append_eq_append_drop]
          have hlen : sumLen (c :: cs) = c.length + sumLen cs := by
            simp [sumLen]
          simp [hlen, List.drop_replicate]
        rw [h1, h2]
      have hstep := ih (pre ++ c)
      simp only [writeChunks, hset]
      have hlen2 : pre.length + c.length = (pre ++ c).length := by simp
      rw [hlen2, hstep]
      simp [List.flatten]

theorem mergeChunks_eq_join (chunks : List (List Nat)) :
    mergeChunks chunks = chunks.flatten := by
  have h := writeChunks_join chunks []
  simpa [mergeChunks, totalLength_eq_sumLen] using h

/-- Sum of the lengths of the first `i` byte lists: the running `offset` at
which chunk `i` is written by the loop of lines 162-166. -/
def sumBefore (chunks : List (List Nat)) (i : Nat) : Nat := sumLen (chunks.take i)

theorem flatten_getD (chunks : List (List Nat)) (i j : Nat)
    (hj : j < (chunks.getD i []).length) :
    chunks.flatten.getD (sumBefore chunks i + j) 0 = (chunks.getD i []).getD j 0 := by
  induction chunks generalizing i with
  | nil =>
      simp [List.getD] at hj
  | cons c cs ih =>
      cases i with
      | zero =>
          have hj0 : j < c.length := by simpa [List.getD] using hj
          simp only [sumBefore, sumLen, List.take_zero, List.map_nil, List.sum_nil,
            Nat.zero_add, List.flatten_cons, List.getD_cons_zero]
          exact List.getD_append c cs.flatten 0 j hj0
      | succ i =>
          have hj1 : j < (cs.getD i []).length := by simpa [List.getD] using hj
          have hsum : sumBefore (c :: cs) (i + 1) = c.length + sumBefore cs i := by
            simp [sumBefore, sumLen]
          have hge : c.length ≤ sumBefore (c :: cs) (i + 1) + j := by omega
          rw [List.flatten_cons, List.getD_append_right c cs.flatten 0 _ hge]
          have harith : sumBefore (c :: cs) (i + 1) + j - c.length = sumBefore cs i + j := by
            omega
          rw [harith]
          simpa [List.getD] using ih i hj1

theorem chunkToUint8_length (c : RawChunk) (h : c.wf = true) :
    (chunkToUint8 c).length = c.byteLength := by
  cases c with
  | uint8Array buffer byteOffset byteLength =>
      simp only [RawChunk.wf, decide_eq_true_eq] at h
      simp [chunkToUint8, RawChunk.byteLength, viewBytes]
      omega
  | arrayBuffer bytes => simp [chunkToUint8, RawChunk.byteLength]
  | view buffer byteOffset byteLength =>
      simp only [RawChunk.wf, decide_eq_true_eq] at h
      simp [chunkToUint8, RawChunk.byteLength, viewBytes]
      omega
  | other tag => simp [chunkToUint8, RawChunk.byteLength]

/-- The four event kinds of the unified contract. -/
inductive EventKind where
  | opened
  | message
  | error
  | closed
deriving DecidableEq, Repr

/-- The listener registrations held by the underlying `ws` socket, one list
per event kind.  Listeners are identified by numbers. -/
structure ListenerTable where
  openL : List Nat
  messageL : List Nat
  errorL : List Nat
  closeL : List Nat
deriving DecidableEq, Repr

/-- The empty table: a freshly constructed socket with no listeners. -/
def ListenerTable.empty : ListenerTable := ⟨[], [], [], []⟩

/-- The registrations held for one kind. -/
def ListenerTable.listeners (t : ListenerTable) : EventKind → List Nat
  | EventKind.opened => t.openL
  | EventKind.message => t.messageL
  | EventKind.error => t.errorL
  | EventKind.closed => t.closeL

/-- `socket.on(event, handler)`: Node's `EventEmitter.on` appends the
handler to the list for that event; emitting the event later invokes every
registered handler in registration order. -/
def emitterOn (t : ListenerTable) (k : EventKind) (l : Nat) : ListenerTable :=
  match k with
  | EventKind.opened => { t with openL := t.openL ++ [l] }
  | EventKind.message => { t with messageL := t.messageL ++ [l] }
  | EventKind.error => { t with errorL := t.errorL ++ [l] }
  | EventKind.closed => { t with closeL := t.closeL ++ [l] }

/-- The native `addEventListener` of `ws` (>= 8): an EventTarget-style
registration that wraps the listener and registers it via `on`, so each
call adds one more listener for the kind. -/
def nativeAddEventListener (t : ListenerTable) (k : EventKind) (l : Nat) : ListenerTable :=
  emitterOn t k l

/-- `wrapNodeWebSocket.addEventListener`, lines 85-124: if the socket has a
native `addEventListener` it is preferred (line 87-90); otherwise the
`switch` wires a fresh `socket.on` handler for the matching event name.
Either way one more handler is registered with the emitter. -/
def wrapAddEventListener (hasNative : Bool) (t : ListenerTable) (k : EventKind) (l : Nat) :
    ListenerTable :=
  if hasNative then nativeAddEventListener t k l
  else
    match k with
    | EventKind.opened => emitterOn t EventKind.opened l
    | EventKind.message => emitterOn t EventKind.message l
    | EventKind.error => emitterOn t EventKind.error l
    | EventKind.closed => emitterOn t EventKind.closed l

/-- The listeners invoked, in order, when the underlying socket emits an
event of kind `k`: Node's emitter calls every handler registered for the
event, in registration order. -/
def firedListeners (t : ListenerTable) (k : EventKind) : List Nat :=
  t.listeners k

/-- The globals the module probes.  `hasWebSocketPair` is
`typeof WebSocketPair !== "undefined"`; `processDefined` is
`typeof process !== "undefined"`; `processReleaseName` is the value of
`process.release?.name` (`none` when `release` or `name` is absent). -/
structure RuntimeEnv where
  hasWebSocketPair : Bool
  processDefined : Bool
  processReleaseName : Option String
deriving DecidableEq, Repr

/-- `isNodeRuntime`, lines 61-63. -/
def isNodeRuntime (env : RuntimeEnv) : Bool :=
  env.processDefined && (env.processReleaseName == some "node")

/-- `isCloudflareWorkerRuntime`, lines 65-67. -/
def isCloudflareWorkerRuntime (env : RuntimeEnv) : Bool :=
  env.hasWebSocketPair

/-- The three environment tags of the capability classification. -/
inductive RuntimeTag where
  | EdgeSandbox
  | ProcessHost
  | Generic
deriving DecidableEq, Repr

/-- The capability classification as performed by the dispatch of
`getIsomorphicWebSocket` (lines 45-53): the Cloudflare probe is consulted
first, then the Node probe, and otherwise the generic fallback is used. -/
def classifyRuntime (env : RuntimeEnv) : RuntimeTag :=
  if isCloudflareWorkerRuntime env then RuntimeTag.EdgeSandbox
  else if isNodeRuntime env then RuntimeTag.ProcessHost
  else RuntimeTag.Generic

/-- A headers object, as an ordered association list of name/value pairs;
with JavaScript object semantics a later entry for a name shadows an
earlier one. -/
abbrev Headers := List (String × String)

/-- Object property lookup: the last entry for the key wins, as in a
JavaScript object literal built by spreading. -/
def getHeader (hs : Headers) (k : String) : Option String :=
  (List.reverse hs).findSome? (fun p => if p.1 = k then some p.2 else none)

/-- `IsomorphicWebSocketOptions`: the recognized `headers` option; an
absent option is the empty mapping. -/
structure IsomorphicWebSocketOptions where
  headers : Headers
deriving DecidableEq, Repr

/-- A JavaScript `Error` value.  `new Error(message)` sets only `message`;
it defines no `status` property, so `status` is `none` for every error the
module constructs. -/
structure JSError where
  message : String
  status : Option Nat
deriving DecidableEq, Repr

/-- `new Error(message)`. -/
def jsNewError (message : String) : JSError := ⟨message, none⟩

/-- The response of the `fetch` call on the Cloudflare path: an optional
paired socket (identified by a number), the numeric status and the status
text. -/
structure FetchResponse where
  webSocket : Option Nat
  status : Nat
  statusText : String
deriving DecidableEq, Repr

/-- Replace the first occurrence of `pat` in a character list by `repl`
(the behavior of JavaScript `String.prototype.replace` with string
arguments); the list is unchanged when `pat` does not occur. -/
def replaceFirst (pat repl : List Char) : List Char → List Char
  | [] => if pat.isPrefixOf ([] : List Char) then repl else []
  | c :: rest =>
      if pat.isPrefixOf (c :: rest) then repl ++ (c :: rest).drop pat.length
      else c :: replaceFirst pat repl rest

/-- The URL actually fetched on the Cloudflare path, line 179:
`url.replace("wss://", "https://")`. -/
def cfRequestUrl (url : String) : String :=
  String.mk (replaceFirst "wss://".data "https://".data url.data)

/-- The headers object of the `fetch` call, line 180:
`{ ...options.headers, Upgrade: "websocket" }` — the configured entries
spread first, then the upgrade marker (which therefore shadows any
configured `Upgrade` entry). -/
def cfRequestHeaders (hs : Headers) : Headers :=
  hs ++ [("Upgrade", "websocket")]

/-- One outgoing request: its URL and headers. -/
structure FetchRequest where
  url : String
  headers : Headers
deriving DecidableEq, Repr

/-- The requests issued by `createCloudflareWebSocket` for a given target
address and options: the single `fetch` of lines 179-181. -/
def cfIssuedRequests (url : String) (options : IsomorphicWebSocketOptions) :
    List FetchRequest :=
  [⟨cfRequestUrl url, cfRequestHeaders options.headers⟩]

/-- The socket value the factory resolves with, by construction path:
the accepted Cloudflare paired socket, the Node `ws` socket built with the
configured headers, or the global `WebSocket` built from the URL alone
(line 195 passes no headers). -/
inductive ConstructedSocket where
  | cloudflare (socket : Nat)
  | node (url : String) (headers : Headers)
  | global (url : String)
deriving DecidableEq, Repr

/-- The headers a construction path hands to its native constructor. -/
def appliedHeaders : ConstructedSocket → Headers
  | ConstructedSocket.cloudflare _ => []
  | ConstructedSocket.node _ headers => headers
  | ConstructedSocket.global _ => []

/-- `createCloudflareWebSocket`, lines 175-191, given the response of its
single `fetch`: when the response carries no paired socket it throws
`new Error` whose message interpolates the status and status text
(line 183-185); otherwise it accepts and returns the paired socket. -/
def createCloudflareWebSocket (resp : FetchResponse) : Except JSError ConstructedSocket :=
  match resp.webSocket with
  | none =>
      Except.error (jsNewError
        ("Server refused the WebSocket upgrade: " ++ toString resp.status ++ " "
          ++ resp.statusText))
  | some socket => Except.ok (ConstructedSocket.cloudflare socket)

/-- Diagnostic levels used by the module. -/
inductive LogLevel where
  | debug
  | warn
deriving DecidableEq, Repr

/-- The number of warn-level entries in an emitted log. -/
def countWarn (log : List (LogLevel × String)) : Nat :=
  (log.filter (fun e => e.1 == LogLevel.warn)).length

/-- `getIsomorphicWebSocket`, lines 41-59, as a function of the probed
environment, the response the Cloudflare `fetch` would produce, the URL and
the options.  It returns the construction outcome together with the log
entries emitted, in order, before the function returns. -/
def getIsomorphicWebSocket (env : RuntimeEnv) (resp : FetchResponse) (url : String)
    (options : IsomorphicWebSocketOptions) :
    Except JSError ConstructedSocket × List (LogLevel × String) :=
  if isCloudflareWorkerRuntime env then
    (createCloudflareWebSocket resp,
      [(LogLevel.debug, "Using Cloudflare Worker WebSocket implementation")])
  else if isNodeRuntime env then
    (Except.ok (ConstructedSocket.node url options.headers),
      [(LogLevel.debug, "Using Node WebSocket implementation")])
  else
    (Except.ok (ConstructedSocket.global url),
      [(LogLevel.warn, "Falling back to global WebSocket; custom headers may not be applied")])

theorem chunkToUint8_eq_nil_of_not_binary (c : RawChunk) (h : c.isBinary = false) :
    chunkToUint8 c = [] := by
  cases c with
  | uint8Array buffer byteOffset byteLength => simp [RawChunk.isBinary] at h
  | arrayBuffer bytes => simp [RawChunk.isBinary] at h
  | view buffer byteOffset byteLength => simp [RawChunk.isBinary] at h
  | other tag => rfl

theorem flatten_map_filter_isBinary (chunks : List RawChunk) :
    ((chunks.filter RawChunk.isBinary).map chunkToUint8).flatten =
      (chunks.map chunkToUint8).flatten := by
  induction chunks with
  | nil => rfl
  | cons c cs ih =>
      cases hc : c.isBinary with
      | true => simp [List.filter_cons, hc, ih]
      | false =>
          simp [List.filter_cons, hc, ih, chunkToUint8_eq_nil_of_not_binary c hc]

theorem isPrefixOf_append_self (l r : List Char) : l.isPrefixOf (l ++ r) = true := by
  induction l with
  | nil => cases r <;> rfl
  | cons a as ih => simp [List.isPrefixOf, ih]

theorem drop_length_append (l r : List Char) : (l ++ r).drop l.length = r := by
  induction l with
  | nil => rfl
  | cons a as ih => simp [ih]

theorem replaceFirst_front (pat repl rest : List Char) (hne : pat ≠ []) :
    replaceFirst pat repl (pat ++ rest) = repl ++ rest := by
  cases pat with
  | nil => exact absurd rfl hne
  | cons a as =>
      have hpre : (a :: as).isPrefixOf ((a :: as) ++ rest) = true :=
        isPrefixOf_append_self (a :: as) rest
      have hdef : replaceFirst (a :: as) repl ((a :: as) ++ rest) =
          if (a :: as).isPrefixOf ((a :: as) ++ rest) then
            repl ++ ((a :: as) ++ rest).drop (a :: as).length
          else a :: replaceFirst (a :: as) repl (as ++ rest) := rfl
      rw [hdef, if_pos hpre, drop_length_append]

theorem getHeader_cfRequestHeaders_upgrade (hs : Headers) :
    getHeader (cfRequestHeaders hs) "Upgrade" = some "websocket" := by
  simp [getHeader, cfRequestHeaders]

theorem getHeader_cfRequestHeaders_other (hs : Headers) (k : String) (h : k ≠ "Upgrade") :
    getHeader (cfRequestHeaders hs) k = getHeader hs k := by
  simp [getHeader, cfRequestHeaders, List.findSome?_cons, if_neg (Ne.symm h)]

/-- C4: for every input to the normalizer that is not a string, not a
contiguous binary buffer, not a byte-array view, and not a sequence of
chunks, `normalizeNodeMessageData` returns an empty byte sequence (a
`Uint8Array` of length 0) and, being a total function, raises no error. -/
theorem C4_unrecognized_yields_empty (tag : Nat) :
    normalizeNodeMessageData (RawData.other tag) = MessageData.uint8Array [] := rfl

/-- C5: normalizing an already-canonical payload is idempotent up to
equivalence: a string is returned unchanged, a contiguous binary buffer is
returned unchanged, and a byte-array view is returned as a `Uint8Array`
with exactly the view's bytes, whose length equals the view's
`byteLength` (using the typed-array well-formedness bound
`byteOffset + byteLength ≤ buffer.length`). -/
theorem C5_normalize_idempotent (s : String) (bytes buffer : List Nat)
    (byteOffset byteLength : Nat) (h : byteOffset + byteLength ≤ buffer.length) :
    normalizeNodeMessageData (RawData.str s) = MessageData.str s ∧
    normalizeNodeMessageData (RawData.arrayBuffer bytes) = MessageData.arrayBuffer bytes ∧
    normalizeNodeMessageData (RawData.view buffer byteOffset byteLength) =
      MessageData.uint8Array (viewBytes buffer byteOffset byteLength) ∧
    (viewBytes buffer byteOffset byteLength).length = byteLength := by
  refine ⟨rfl, rfl, rfl, ?_⟩
  simp [viewBytes]
  omega

/-- Witness for C5 at a concrete view: normalizing the view of `[7, 8, 9]`
at offset 1 and length 2 yields the `Uint8Array` `[8, 9]` of length 2. -/
theorem C5_witness :
    normalizeNodeMessageData (RawData.view [7, 8, 9] 1 2) = MessageData.uint8Array [8, 9] ∧
    (viewBytes [7, 8, 9] 1 2).length = 2 := by
  have h := C5_normalize_idempotent "hi" [1] [7, 8, 9] 1 2 (by decide)
  refine ⟨?_, h.2.2.2⟩
  rw [h.2.2.1]
  decide

/-- C9 (implicit): within a chunk-sequence input, any element that is not a
recognized binary shape is coerced to a zero-length chunk and contributes
no bytes; the normalized result is exactly the in-order concatenation of
the recognized chunks' bytes, and no error is raised (the function is
total). -/
theorem C9_unrecognized_chunks_contribute_nothing (chunks : List RawChunk) (tag : Nat) :
    chunkToUint8 (RawChunk.other tag) = [] ∧
    normalizeNodeMessageData (RawData.array chunks) =
      MessageData.uint8Array (((chunks.filter RawChunk.isBinary).map chunkToUint8).flatten) := by
  refine ⟨rfl, ?_⟩
  simp only [normalizeNodeMessageData, mergeChunks_eq_join, flatten_map_filter_isBinary]

/-- C6: the capability classification is a synchronous, total function
returning exactly one of the three tags, decided in the fixed order of
lines 45-53: the socket-pairing marker wins (even when the process-host
marker is also present), then the process-host marker, then the generic
fallback. -/
theorem C6_classification_order (env : RuntimeEnv) :
    (classifyRuntime env = RuntimeTag.EdgeSandbox ∨
      classifyRuntime env = RuntimeTag.ProcessHost ∨
      classifyRuntime env = RuntimeTag.Generic) ∧
    (isCloudflareWorkerRuntime env = true → classifyRuntime env = RuntimeTag.EdgeSandbox) ∧
    (isCloudflareWorkerRuntime env = false → isNodeRuntime env = true →
      classifyRuntime env = RuntimeTag.ProcessHost) ∧
    (isCloudflareWorkerRuntime env = false → isNodeRuntime env = false →
      classifyRuntime env = RuntimeTag.Generic) := by
  unfold classifyRuntime
  cases h1 : isCloudflareWorkerRuntime env <;> cases h2 : isNodeRuntime env <;> simp

/-- Witness for C6: an environment exposing both the socket-pairing marker
and the process-host marker classifies as EdgeSandbox. -/
theorem C6_witness :
    classifyRuntime ⟨true, true, some "node"⟩ = RuntimeTag.EdgeSandbox :=
  (C6_classification_order ⟨true, true, some "node"⟩).2.1 (by decide)

/-- C10 (implicit): every construction that reaches the Generic path emits
the warn-level header-drop diagnostic, even when no headers are configured
at all — the `logger.warn` of lines 55-57 is not gated on the options. -/
theorem C10_warning_unconditional (env : RuntimeEnv) (resp : FetchResponse) (url : String)
    (hgen : classifyRuntime env = RuntimeTag.Generic) :
    (getIsomorphicWebSocket env resp url ⟨[]⟩).2 =
      [(LogLevel.warn, "Falling back to global WebSocket; custom headers may not be applied")] ∧
    countWarn (getIsomorphicWebSocket env resp url ⟨[]⟩).2 = 1 := by
  cases h1 : isCloudflareWorkerRuntime env <;> cases h2 : isNodeRuntime env <;>
    simp [classifyRuntime, h1, h2] at hgen
  simp [getIsomorphicWebSocket, h1, h2, countWarn]

/-- Witness for C10: a generic environment (no socket-pairing global, a
defined `process` whose release is not "node") with no configured headers
still produces exactly one warn-level entry. -/
theorem C10_witness :
    countWarn (getIsomorphicWebSocket ⟨false, true, some "deno"⟩ ⟨none, 0, ""⟩
      "wss://example.com" ⟨[]⟩).2 = 1 :=
  (C10_warning_unconditional ⟨false, true, some "deno"⟩ ⟨none, 0, ""⟩
    "wss://example.com" (by decide)).2

/-- C8: constructing on the Generic path with a non-empty headers mapping
emits exactly one warn-level diagnostic in the log produced before the
factory returns, and the configured headers are not applied — the global
constructor of line 195 receives only the URL. -/
theorem C8_generic_header_warning (env : RuntimeEnv) (resp : FetchResponse) (url : String)
    (options : IsomorphicWebSocketOptions)
    (hgen : classifyRuntime env = RuntimeTag.Generic)
    (_hhdr : options.headers ≠ []) :
    (getIsomorphicWebSocket env resp url options).1 =
      Except.ok (ConstructedSocket.global url) ∧
    countWarn (getIsomorphicWebSocket env resp url options).2 = 1 ∧
    appliedHeaders (ConstructedSocket.global url) = [] := by
  cases h1 : isCloudflareWorkerRuntime env <;> cases h2 : isNodeRuntime env <;>
    simp [classifyRuntime, h1, h2] at hgen
  simp [getIsomorphicWebSocket, h1, h2, countWarn, appliedHeaders]

/-- Witness for C8: a concrete generic environment with one configured
header yields the global socket, exactly one warn-level entry, and no
applied headers. -/
theorem C8_witness :
    (getIsomorphicWebSocket ⟨false, false, none⟩ ⟨none, 0, ""⟩ "wss://example.com"
      ⟨[("Authorization", "token")]⟩).1 =
      Except.ok (ConstructedSocket.global "wss://example.com") ∧
    countWarn (getIsomorphicWebSocket ⟨false, false, none⟩ ⟨none, 0, ""⟩ "wss://example.com"
      ⟨[("Authorization", "token")]⟩).2 = 1 := by
  have h := C8_generic_header_warning ⟨false, false, none⟩ ⟨none, 0, ""⟩ "wss://example.com"
    ⟨[("Authorization", "token")]⟩ (by decide) (by decide)
  exact ⟨h.1, h.2.1⟩

/-- Counterexample to C1 as stated: registering listener 1 and then
listener 2 for `message` on a fresh bridge over an emitter-style socket
retains both registrations, and an emitted `message` event fires both in
order — not only the second. -/
theorem C1_counterexample :
    firedListeners
        (wrapAddEventListener false
          (wrapAddEventListener false ListenerTable.empty EventKind.message 1)
          EventKind.message 2)
        EventKind.message = [1, 2] ∧
    firedListeners
        (wrapAddEventListener false
          (wrapAddEventListener false ListenerTable.empty EventKind.message 1)
          EventKind.message 2)
        EventKind.message ≠ [2] ∧
    ((wrapAddEventListener false
          (wrapAddEventListener false ListenerTable.empty EventKind.message 1)
          EventKind.message 2).listeners EventKind.message).length ≠ 1 := by
  decide

/-- C1 amended: registrations for the same event kind accumulate rather
than replace — after two registrations the instance retains both
listeners, and a subsequent event of that kind fires both, the first
included, in registration order.  This holds on both the native
`addEventListener` branch and the manual `socket.on` wiring branch. -/
theorem C1_listeners_accumulate (hasNative : Bool) (t : ListenerTable) (k : EventKind)
    (l1 l2 : Nat) :
    (wrapAddEventListener hasNative (wrapAddEventListener hasNative t k l1) k l2).listeners k =
      t.listeners k ++ [l1, l2] ∧
    firedListeners (wrapAddEventListener hasNative (wrapAddEventListener hasNative t k l1) k l2)
        k = t.listeners k ++ [l1, l2] := by
  cases hasNative <;> cases k <;>
    simp [wrapAddEventListener, nativeAddEventListener, emitterOn, ListenerTable.listeners,
      firedListeners]

/-- Counterexample to C3 as stated: on the Cloudflare path a simulated
upgrade response with status 403 and no paired socket makes the factory
reject with a plain `new Error` — its `status` field is absent (`none`),
not 403; the status reaches the caller only inside the message string. -/
theorem C3_counterexample :
    (getIsomorphicWebSocket ⟨true, false, none⟩ ⟨none, 403, "Forbidden"⟩
        "wss://example.com" ⟨[]⟩).1 =
      Except.error ⟨"Server refused the WebSocket upgrade: 403 Forbidden", none⟩ ∧
    (JSError.mk "Server refused the WebSocket upgrade: 403 Forbidden" none).status ≠
      some 403 := by
  constructor
  · rfl
  · decide

/-- C3 amended: on the EdgeSandbox path, when the upgrade response carries
no paired socket, the factory rejects with an error whose message carries
the response's numeric status and status text as diagnostics (and whose
`status` field is absent); in particular a status-403 response produces a
message containing "403" and the status text. -/
theorem C3_upgrade_refused (env : RuntimeEnv) (resp : FetchResponse) (url : String)
    (options : IsomorphicWebSocketOptions)
    (henv : isCloudflareWorkerRuntime env = true)
    (hws : resp.webSocket = none) :
    (getIsomorphicWebSocket env resp url options).1 =
      Except.error
        ⟨"Server refused the WebSocket upgrade: " ++ toString resp.status ++ " "
          ++ resp.statusText, none⟩ := by
  simp [getIsomorphicWebSocket, henv, createCloudflareWebSocket, hws, jsNewError]

/-- Witness for C3 at the simulated 403 response. -/
theorem C3_witness :
    (getIsomorphicWebSocket ⟨true, true, some "node"⟩ ⟨none, 403, "Forbidden"⟩
        "wss://chat.example" ⟨[]⟩).1 =
      Except.error
        ⟨"Server refused the WebSocket upgrade: " ++ toString (403 : Nat) ++ " "
          ++ "Forbidden", none⟩ :=
  C3_upgrade_refused ⟨true, true, some "node"⟩ ⟨none, 403, "Forbidden"⟩
    "wss://chat.example" ⟨[]⟩ rfl rfl

/-- Counterexample to C7 as stated: a target address using the non-secure
upgrade scheme is passed to `fetch` unchanged — `url.replace` at line 179
only rewrites "wss://", so "ws://example.com" is not rewritten to the
corresponding non-upgrade scheme "http://example.com". -/
theorem C7_counterexample :
    cfRequestUrl "ws://example.com" = "ws://example.com" ∧
    ("ws://example.com" : String) ≠ "http://example.com" := by
  constructor
  · rfl
  · decide

/-- C7 amended: on the EdgeSandbox path, for every target address whose
first characters are "wss://", exactly one request is issued, its URL is
the address with that prefix rewritten to "https://", and its headers are
the configured headers plus the Upgrade marker header (the marker
shadowing any configured "Upgrade" entry); addresses not containing
"wss://" — such as "ws://" addresses — are requested unchanged. -/
theorem C7_edge_request (rest : List Char) (url : String)
    (options : IsomorphicWebSocketOptions)
    (h : url.data = "wss://".data ++ rest) :
    cfIssuedRequests url options =
      [⟨String.mk ("https://".data ++ rest), cfRequestHeaders options.headers⟩] ∧
    (cfIssuedRequests url options).length = 1 ∧
    getHeader (cfRequestHeaders options.headers) "Upgrade" = some "websocket" ∧
    ∀ k, k ≠ "Upgrade" →
      getHeader (cfRequestHeaders options.headers) k = getHeader options.headers k := by
  refine ⟨?_, rfl, getHeader_cfRequestHeaders_upgrade options.headers,
    fun k hk => getHeader_cfRequestHeaders_other options.headers k hk⟩
  simp only [cfIssuedRequests, cfRequestUrl, h]
  rw [replaceFirst_front "wss://".data "https://".data rest (by decide)]

/-- Witness for C7 at a concrete secure address and one configured
header. -/
theorem C7_witness :
    cfIssuedRequests "wss://example.com" ⟨[("Authorization", "token")]⟩ =
      [⟨"https://example.com", [("Authorization", "token"), ("Upgrade", "websocket")]⟩] ∧
    getHeader (cfRequestHeaders [("Authorization", "token")]) "Upgrade" = some "websocket" ∧
    getHeader (cfRequestHeaders [("Authorization", "token")]) "Authorization" =
      some "token" := by
  have h := C7_edge_request "example.com".data "wss://example.com"
    ⟨[("Authorization", "token")]⟩ (by decide)
  refine ⟨?_, h.2.2.1, ?_⟩
  · rw [h.1]
    decide
  · rw [h.2.2.2 "Authorization" (by decide)]
    decide

/-- C2: for an ordered list of binary chunks, the normalizer returns a
single freshly built contiguous `Uint8Array` equal to the in-order
concatenation of the chunks' bytes, its length equals the sum of the chunk
byte lengths, and byte `offset_i + j` of the result equals byte `j` of
chunk `i` (where `offset_i` is the sum of the lengths of the chunks before
`i`) — no chunk dropped or padded, zero-length chunks included. -/
theorem C2_chunk_concatenation (chunks : List RawChunk)
    (_hbin : ∀ c ∈ chunks, c.isBinary = true)
    (hwf : ∀ c ∈ chunks, c.wf = true) :
    normalizeNodeMessageData (RawData.array chunks) =
      MessageData.uint8Array ((chunks.map chunkToUint8).flatten) ∧
    ((chunks.map chunkToUint8).flatten).length = (chunks.map RawChunk.byteLength).sum ∧
    ∀ i j, i < chunks.length → j < (chunks.getD i (RawChunk.other 0)).byteLength →
      ((chunks.map chunkToUint8).flatten).getD (sumBefore (chunks.map chunkToUint8) i + j) 0 =
        (chunkToUint8 (chunks.getD i (RawChunk.other 0))).getD j 0 := by
  refine ⟨?_, ?_, ?_⟩
  · simp only [normalizeNodeMessageData, mergeChunks_eq_join]
  · rw [List.length_flatten, List.map_map]
    congr 1
    exact List.map_congr_left (fun c hc => chunkToUint8_length c (hwf c hc))
  · intro i j hi hj
    have hmem : chunks.getD i (RawChunk.other 0) ∈ chunks := by
      rw [List.getD_eq_getElem _ _ hi]
      exact List.getElem_mem hi
    have hmap : (chunks.map chunkToUint8).getD i [] =
        chunkToUint8 (chunks.getD i (RawChunk.other 0)) := by
      rw [List.getD_eq_getElem _ _ (by simpa using hi), List.getElem_map,
        List.getD_eq_getElem _ _ hi]
    have hj2 : j < ((chunks.map chunkToUint8).getD i []).length := by
      rw [hmap, chunkToUint8_length _ (hwf _ hmem)]
      exact hj
    have h := flatten_getD (chunks.map chunkToUint8) i j hj2
    rw [h, hmap]

/-- Witness for C2 at the spec's example: chunks of bytes `[1,2,3]`,
`[4,5,6,7,8]` and `[9,10]` (given as a `Uint8Array`, an `ArrayBuffer` and a
typed-array view) normalize to the single ten-byte sequence
`[1,2,3,4,5,6,7,8,9,10]`. -/
theorem C2_witness :
    ([RawChunk.uint8Array [1, 2, 3] 0 3, RawChunk.arrayBuffer [4, 5, 6, 7, 8],
        RawChunk.view [0, 9, 10] 1 2].all RawChunk.isBinary) = true ∧
    normalizeNodeMessageData (RawData.array [RawChunk.uint8Array [1, 2, 3] 0 3,
        RawChunk.arrayBuffer [4, 5, 6, 7, 8], RawChunk.view [0, 9, 10] 1 2]) =
      MessageData.uint8Array [1, 2, 3, 4, 5, 6, 7, 8, 9, 10] := by
  refine ⟨by decide, ?_⟩
  have h := C2_chunk_concatenation [RawChunk.uint8Array [1, 2, 3] 0 3,
    RawChunk.arrayBuffer [4, 5, 6, 7, 8], RawChunk.view [0, 9, 10] 1 2]
    (by decide) (by decide)
  rw [h.1]
  decide
